import Mathlib

/-!
Verification of the PaktDP tabular data-quality pipeline.

This file embeds the Python sources (data_outlier.py, cleaner_scaler.py,
data_cleaner.py, data_module.py, classes.py) as executable Lean definitions
over a table model with exact rational arithmetic, and proves or refutes the
frozen behavioural claims about them.

Modelling conventions:
- A pandas DataFrame is a `Frame`: an ordered schema of (name, dtype) pairs and
  a list of rows, a row being a list of cells.  A cell is a rational number, a
  string, or null (NaN/None).
- Machine floats are modelled by exact rationals.  Where pandas produces NaN
  (mean/quantile of an empty selection, division by a zero standard deviation),
  the embedding uses `Option` with `none`, and comparisons against `none` are
  false, matching IEEE comparisons against NaN.
- In-place mutation (`fillna(..., inplace=True)` on an aliased dataframe) is
  modelled by returning a pair `(return value, state of the caller-visible
  dataframe after the call)`; the two components coincide for the in-place
  operations and the second equals the input for copy-on-write components.
-/

/-- A cell of a dataframe: a numeric value, a string, or a null (NaN/None). -/
inductive Cell where
  | num (q : ℚ)
  | str (s : String)
  | null
deriving DecidableEq

/-- The dtype of a pandas column, as distinguished by `select_dtypes` in the
sources: numeric (int64/float64) or categorical (object/category). -/
inductive Dtype where
  | numeric
  | categorical
deriving DecidableEq

/-- An in-memory table: an ordered schema of (column name, dtype) pairs and a
list of rows.  Cell (j, i) of the table is `rows[j][i]`, the column of
`schema[i]`. -/
structure Frame where
  schema : List (String × Dtype)
  rows : List (List Cell)
deriving DecidableEq

/-- Numeric content of a cell, `none` for strings and nulls. -/
def toNum : Cell → Option ℚ
  | Cell.num q => some q
  | _ => none

/-- Index of the first schema entry named `c` (`col in df.columns` lookup). -/
def colIndex (f : Frame) (c : String) : Option ℕ :=
  f.schema.findIdx? (fun p => decide (p.1 = c))

/-- The cells of column `i`, one per row; a missing cell reads as null. -/
def cellsAt (f : Frame) (i : ℕ) : List Cell :=
  f.rows.map (fun r => r.getD i Cell.null)

/-- The non-null numeric values of column `i` (what pandas skipna statistics
see). -/
def numValsAt (f : Frame) (i : ℕ) : List ℚ :=
  (cellsAt f i).filterMap toNum

/-- The non-null cells of a column. -/
def nonNullCells (l : List Cell) : List Cell :=
  l.filter (fun c => decide (¬ c = Cell.null))

/-- Whether column `i` contains a null cell (`isnull().any()`). -/
def hasNullAt (f : Frame) (i : ℕ) : Bool :=
  (cellsAt f i).any (fun c => decide (c = Cell.null))

/-- Insert into an ascending list, keeping it ascending. -/
def insertSorted (x : ℚ) : List ℚ → List ℚ
  | [] => [x]
  | y :: ys => if x ≤ y then x :: y :: ys else y :: insertSorted x ys

/-- Ascending insertion sort; pandas sorts the values before interpolating a
quantile. -/
def sortAsc (xs : List ℚ) : List ℚ :=
  xs.foldr insertSorted []

/-- Linear-interpolation quantile of a list of values, exactly as pandas
`Series.quantile(q)` computes it on the non-null values, the probability
`q = qn / qd` being passed as an exact fraction (the sources use 0.25, 0.5
and 0.75, i.e. 1/4, 1/2 and 3/4): sort ascending, take position `q * (n - 1)`,
and interpolate linearly between the two neighbouring order statistics.
`none` for an empty list (pandas returns NaN). -/
def quantile (xs : List ℚ) (qn qd : ℕ) : Option ℚ :=
  match sortAsc xs with
  | [] => none
  | s =>
    let n := s.length
    let i := qn * (n - 1) / qd
    let gamma : ℚ := (qn * (n - 1) : ℕ) / (qd : ℚ) - (i : ℚ)
    let xi := s.getD i 0
    let xi1 := s.getD (i + 1) xi
    some (xi + gamma * (xi1 - xi))

/-- Arithmetic mean of a list of values (`Series.mean()` over the non-null
values), `none` for an empty list (pandas returns NaN). -/
def meanQ (xs : List ℚ) : Option ℚ :=
  match xs with
  | [] => none
  | _ => some (xs.sum / (xs.length : ℚ))

/-- Minimum of a list of values, `none` for an empty list. -/
def listMin : List ℚ → Option ℚ
  | [] => none
  | x :: xs =>
    some (match listMin xs with
          | none => x
          | some m => min x m)

/-- Maximum of a list of values, `none` for an empty list. -/
def listMax : List ℚ → Option ℚ
  | [] => none
  | x :: xs =>
    some (match listMax xs with
          | none => x
          | some m => max x m)

/-- Strict order on cells used only to embed the tie-break of pandas
`Series.mode()`, which returns the modes sorted ascending (a dataframe column
is homogeneous, so the cross-constructor cases are unreachable). -/
def cellLt : Cell → Cell → Bool
  | Cell.num x, Cell.num y => decide (x < y)
  | Cell.str s, Cell.str t => decide (s < t)
  | Cell.num _, _ => true
  | _, _ => false

/-- First entry of pandas `Series.mode()` over the given cells: a value of
maximal multiplicity, ties resolved to the least value (pandas sorts the
modes ascending); `none` when the list is empty. -/
def modeCell (xs : List Cell) : Option Cell :=
  xs.eraseDups.foldl
    (fun best s =>
      match best with
      | none => some s
      | some b =>
        if xs.count b < xs.count s then some s
        else if xs.count s = xs.count b ∧ cellLt s b then some s
        else some b)
    none

/-- Map the cells of a row with access to the column index, `k` being the
index of the first cell. -/
def cellMapAux (h : ℕ → Cell → Cell) : ℕ → List Cell → List Cell
  | _, [] => []
  | k, c :: cs => h k c :: cellMapAux h (k + 1) cs

/-- Boolean row filtering (`df[mask]`): keep the rows satisfying the
predicate, preserving their relative order. -/
def filterRows (f : Frame) (p : List Cell → Bool) : Frame :=
  Frame.mk f.schema (f.rows.filter p)

/-! ## OutlierCleaner (src/data_outlier.py) -/

/-- Keep-row predicate of one IQR filtering pass over column `i` with the
given bounds: `(df[col] >= lower) & (df[col] <= upper)`.  A null cell fails
both comparisons, as NaN does in pandas. -/
def iqrPred (i : ℕ) (lo hi : ℚ) (r : List Cell) : Bool :=
  match r.getD i Cell.null with
  | Cell.num x => decide (lo ≤ x ∧ x ≤ hi)
  | _ => false

/-- One iteration of the loop in `OutlierCleaner._remove_outliers_iqr`:
validate the column, compute Q1 and Q3 of the column as it currently stands,
and drop the rows outside `[Q1 - 1.5*IQR, Q3 + 1.5*IQR]`.  When the column
has no non-null value, the quantiles are NaN and every comparison is false,
so every row is dropped. -/
def iqrFilterStep (f : Frame) (c : String) : Except String Frame :=
  match colIndex f c with
  | none => Except.error (c ++ " kolonu DataFrame’de yok")
  | some i =>
    match (f.schema.getD i ("", Dtype.numeric)).2 with
    | Dtype.categorical => Except.error (c ++ " sayısal bir kolon değil")
    | Dtype.numeric =>
      match quantile (numValsAt f i) 1 4, quantile (numValsAt f i) 3 4 with
      | some q1v, some q3v =>
        Except.ok (filterRows f
          (iqrPred i (q1v - 3/2 * (q3v - q1v)) (q3v + 3/2 * (q3v - q1v))))
      | _, _ => Except.ok (Frame.mk f.schema [])

/-- The `for col in columns` loop of `_remove_outliers_iqr`: each pass filters
the dataframe produced by the previous one, so the bounds of every column
after the first are computed from the already-filtered data. -/
def iqrLoop : Frame → List String → Except String Frame
  | f, [] => Except.ok f
  | f, c :: cs =>
    match iqrFilterStep f c with
    | Except.error e => Except.error e
    | Except.ok g => iqrLoop g cs

/-- Keep-row predicate of one z-score filtering pass over column `i` given the
non-null count `n`, the mean `m` and the ddof-1 sample variance `sv` of the
column: `np.abs((x - mean) / std) <= t`.  pandas `std()` uses ddof = 1, so
the standard deviation is NaN for fewer than two values and 0 for a constant
column; in both cases the z-score is NaN/undefined and the comparison is
false, as is every comparison when `t < 0`.  For `std > 0` and `t ≥ 0`,
`|(x - m) / std| ≤ t` holds iff `(x - m)^2 ≤ t^2 * sv`, which is the exact
rational form used here (the square root itself is irrational in general). -/
def zscorePred (i : ℕ) (n : ℕ) (m sv t : ℚ) (r : List Cell) : Bool :=
  match r.getD i Cell.null with
  | Cell.num x =>
    decide (2 ≤ n) && decide (0 < sv) && decide (0 ≤ t) &&
      decide ((x - m) ^ 2 ≤ t ^ 2 * sv)
  | _ => false

/-- One iteration of the loop in `OutlierCleaner._remove_outliers_zscore`:
validate the column, compute the skipna mean and ddof-1 standard deviation of
the column as it currently stands, and drop the rows whose absolute z-score
exceeds the threshold (or whose z-score is NaN). -/
def zscoreFilterStep (t : ℚ) (f : Frame) (c : String) : Except String Frame :=
  match colIndex f c with
  | none => Except.error (c ++ " kolonu DataFrame’de yok")
  | some i =>
    match (f.schema.getD i ("", Dtype.numeric)).2 with
    | Dtype.categorical => Except.error (c ++ " sayısal bir kolon değil")
    | Dtype.numeric =>
      let vals := numValsAt f i
      let n := vals.length
      let m := vals.sum / (n : ℚ)
      let sv := (vals.map (fun x => (x - m) ^ 2)).sum / ((n : ℚ) - 1)
      Except.ok (filterRows f (zscorePred i n m sv t))

/-- The `for col in columns` loop of `_remove_outliers_zscore`; sequential,
like the IQR loop. -/
def zscoreLoop (t : ℚ) : Frame → List String → Except String Frame
  | f, [] => Except.ok f
  | f, c :: cs =>
    match zscoreFilterStep t f c with
    | Except.error e => Except.error e
    | Except.ok g => zscoreLoop t g cs

/-- `OutlierCleaner.remove_outliers`: dispatch on the strategy registry
`{IQR, zscore}` (in Python a dict whose keys the error message renders as a
quoted list), then run the per-column loop of the selected method over the
target columns in the caller-given order. -/
def remove_outliers (f : Frame) (strategy : String) (columns : List String)
    (z_thresh : ℚ) : Except String Frame :=
  if strategy = "IQR" then
    iqrLoop f columns
  else if strategy = "zscore" then
    zscoreLoop z_thresh f columns
  else
    Except.error ("Geçersiz strateji: " ++ strategy ++
      ". Kullanılabilir stratejiler: [IQR, zscore]")

/-! ## DataCleaner (src/cleaner_scaler.py) -/

/-- Fill value of the numeric branch of `DataCleaner.execute`: `mean` and
`median` compute the skipna statistic (`none`, i.e. NaN, when the column has
no value, in which case `fillna` leaves the nulls in place), while EVERY other
strategy string falls into the `else` branch and fills with 0 — there is no
rejection of unknown numeric strategies. -/
def numFillVal (strategy : String) (vals : List ℚ) : Option ℚ :=
  if strategy = "mean" then meanQ vals
  else if strategy = "median" then quantile vals 1 2
  else some 0

/-- Fill value of the categorical branch of `DataCleaner.execute`: `mode`
takes the first entry of `Series.mode()`, substituting the sentinel string
"Missing" when the mode is empty (entirely-null column); EVERY other strategy
string falls into the `else` branch and fills with "Unknown". -/
def catFillVal (strategy : String) (cells : List Cell) : Cell :=
  if strategy = "mode" then
    match modeCell (nonNullCells cells) with
    | some m => m
    | none => Cell.str "Missing"
  else Cell.str "Unknown"

/-- Per-cell effect of `DataCleaner.execute` on the cell of column `i`.  The
Python code loops over the numeric columns and then the categorical columns of
`df_copy`, filling each column that contains a null from that same column’s
own values; as dataframe column names are unique and each fill only touches
its own column, the loop is equivalent to this simultaneous per-column map. -/
def cleanCellAt (f : Frame) (ns cs : String) (i : ℕ) (cell : Cell) : Cell :=
  match (f.schema.getD i ("", Dtype.numeric)).2 with
  | Dtype.numeric =>
    if hasNullAt f i then
      match cell, numFillVal ns (numValsAt f i) with
      | Cell.null, some v => Cell.num v
      | c, _ => c
    else cell
  | Dtype.categorical =>
    if hasNullAt f i then
      (if cell = Cell.null then catFillVal cs (cellsAt f i) else cell)
    else cell

/-- `DataCleaner.execute` of src/cleaner_scaler.py with its two strategy
parameters (`numeric_strategy`, default "mean"; `categorical_strategy`,
default "mode").  `BaseComponent.__init__` copies the dataframe and `execute`
works on a further copy, so the caller’s dataframe — the second component —
is returned unchanged. -/
def cleanerExecute (f : Frame) (ns cs : String) : Frame × Frame :=
  (Frame.mk f.schema (f.rows.map (cellMapAux (cleanCellAt f ns cs) 0)), f)

/-! ## DataScaler (src/cleaner_scaler.py) -/

/-- Min-max transform of sklearn `MinMaxScaler` with per-column statistics:
`(x - min) / (max - min)`.  For a constant column sklearn replaces the zero
range by 1, so every value maps to `(x - min) / 1 = 0`; the embedding returns
0 directly in that case, which is the same value. -/
def minmaxVal (vals : List ℚ) (x : ℚ) : ℚ :=
  let mn := (listMin vals).getD 0
  let mx := (listMax vals).getD 0
  if mx = mn then 0 else (x - mn) / (mx - mn)

/-- Robust transform of sklearn `RobustScaler`: `(x - median) / (Q3 - Q1)`
with linear-interpolation quantiles; a zero IQR is replaced by 1, giving
`x - median`. -/
def robustVal (vals : List ℚ) (x : ℚ) : ℚ :=
  let med := (quantile vals 1 2).getD 0
  let q1v := (quantile vals 1 4).getD 0
  let q3v := (quantile vals 3 4).getD 0
  if q3v - q1v = 0 then x - med else (x - med) / (q3v - q1v)

/-- Exact rational square root, `none` when it does not exist. -/
def ratSqrt (q : ℚ) : Option ℚ :=
  if q < 0 then none
  else
    let a := q.num.toNat.sqrt
    let b := q.den.sqrt
    if ((a : ℚ) / b) * ((a : ℚ) / b) = q then some ((a : ℚ) / b) else none

/-- Standard transform of sklearn `StandardScaler`: `(x - mean) / scale` with
`scale` the square root of the population (ddof 0) variance, a zero scale
being replaced by 1.  The square root is irrational in general, which a
rational embedding cannot represent; this definition is exact whenever the
variance is a rational square and returns 0 otherwise.  No claim below
concerns the numeric output of this branch. -/
def standardVal (vals : List ℚ) (x : ℚ) : ℚ :=
  let m := (meanQ vals).getD 0
  let pv := (vals.map (fun v => (v - m) ^ 2)).sum / (vals.length : ℚ)
  match ratSqrt pv with
  | some s => if s = 0 then x - m else (x - m) / s
  | none => 0

/-- Column-wise transform selected by the scaler strategy registry
`{minmax, standard, robust}`. -/
def scaleValFor (strategy : String) (vals : List ℚ) (x : ℚ) : ℚ :=
  if strategy = "minmax" then minmaxVal vals x
  else if strategy = "standard" then standardVal vals x
  else robustVal vals x

/-- Per-cell effect of `DataScaler.execute` on the cell of column `i`: the
columns selected for scaling are transformed with their own statistics from
the input dataframe (sklearn `fit_transform` fits all selected columns at
once on the input block); other columns and null cells are untouched. -/
def scaleCellAt (f : Frame) (strategy : String) (cols : List String) (i : ℕ)
    (cell : Cell) : Cell :=
  if (f.schema.getD i ("", Dtype.numeric)).1 ∈ cols then
    match cell with
    | Cell.num x => Cell.num (scaleValFor strategy (numValsAt f i) x)
    | other => other
  else cell

/-- The columns `DataScaler.execute` scales: the numeric columns minus the
`exclude_cols` parameter, in schema order. -/
def colsToScale (f : Frame) (exclude : List String) : List String :=
  ((f.schema.filter (fun p => decide (p.2 = Dtype.numeric))).map Prod.fst).filter
    (fun c => decide (¬ c ∈ exclude))

/-- `DataScaler.execute` of src/cleaner_scaler.py.  If no column is to be
scaled the copy is returned as-is BEFORE the strategy is examined; otherwise
an unknown strategy raises `ValueError(f"Unknown strategy: ...")` — a message
that does not list the valid strategies.  `BaseComponent.__init__` copies, so
the caller’s dataframe (second component) is unchanged. -/
def scalerExecute (f : Frame) (strategy : String) (exclude : List String) :
    Except String (Frame × Frame) :=
  let cols := colsToScale f exclude
  if cols = [] then Except.ok (f, f)
  else if strategy = "minmax" ∨ strategy = "standard" ∨ strategy = "robust" then
    Except.ok
      (Frame.mk f.schema (f.rows.map (cellMapAux (scaleCellAt f strategy cols) 0)), f)
  else Except.error ("Unknown strategy: " ++ strategy)

/-! ## DataPipeline (src/cleaner_scaler.py) -/

/-- The parameter dictionary of a pipeline step, restricted to the keys the
components read (`params.get` with the documented defaults). -/
structure StepParams where
  numeric_strategy : Option String
  categorical_strategy : Option String
  strategy : Option String
  exclude_cols : Option (List String)
deriving DecidableEq

/-- The pipeline object; `__init__` copies the caller’s dataframe into
`self.df`. -/
structure DataPipeline where
  df : Frame
deriving DecidableEq

/-- One iteration of the loop in `DataPipeline.run`: construct the component
named by the step (unknown names raise `ValueError`) and execute it on the
current dataframe. -/
def runStep (df : Frame) (name : String) (p : StepParams) : Except String Frame :=
  if name = "cleaner" then
    Except.ok
      (cleanerExecute df (p.numeric_strategy.getD "mean")
        (p.categorical_strategy.getD "mode")).1
  else if name = "scaler" then
    match scalerExecute df (p.strategy.getD "standard") (p.exclude_cols.getD []) with
    | Except.error e => Except.error e
    | Except.ok r => Except.ok r.1
  else Except.error ("Unknown pipeline step: " ++ name)

/-- The step loop of `DataPipeline.run`, threading the dataframe through the
steps in order. -/
def runLoop : Frame → List (String × StepParams) → Except String Frame
  | df, [] => Except.ok df
  | df, s :: ss =>
    match runStep df s.1 s.2 with
    | Except.error e => Except.error e
    | Except.ok g => runLoop g ss

/-- `DataPipeline.run`: executes the steps in order, assigning each step’s
output back to `self.df` ("Güncel dataframe’i bir sonraki adım için güncelle"),
and returns the final `self.df`.  The second component is the pipeline object
as it stands after a successful run: its `df` is the final result, not the
originally supplied dataframe.  (A failing step leaves the partially updated
`self.df` behind; that state is not modelled and no claim uses it.) -/
def DataPipeline.run (st : DataPipeline) (steps : List (String × StepParams)) :
    Except String (Frame × DataPipeline) :=
  match runLoop st.df steps with
  | Except.error e => Except.error e
  | Except.ok g => Except.ok (g, DataPipeline.mk g)

/-! ## ColumnCleaner (src/data_cleaner.py) -/

/-- Replace the null cells of column `i` by `v` (`fillna(v)` on one column). -/
def fillNullsAt (f : Frame) (i : ℕ) (v : Cell) : Frame :=
  Frame.mk f.schema
    (f.rows.map (cellMapAux
      (fun j cell => if j = i ∧ cell = Cell.null then v else cell) 0))

/-- `ColumnCleaner.fill_nulls` of src/data_cleaner.py.  `ColumnCleaner` keeps
a reference to the caller’s dataframe (no copy) and the fill strategies call
`fillna(..., inplace=True)` on it, so the caller-visible dataframe after the
call — the second component — is the same object as the returned one.
Column existence is checked first; the strategy is looked up in the dispatch
dictionary `{mean, median, mode}` and an unknown name raises `ValueError`
listing the valid strategies; `mean`/`median` require a numeric column;
a skipna statistic of an entirely-null column is NaN and `fillna(NaN)`
changes nothing; an empty mode leaves the column unchanged with no error and
no report. -/
def fill_nulls (f : Frame) (column strategy : String) :
    Except String (Frame × Frame) :=
  match colIndex f column with
  | none => Except.error (column ++ " kolonu DataFrame’de yok")
  | some i =>
    if strategy = "mean" then
      match (f.schema.getD i ("", Dtype.numeric)).2 with
      | Dtype.categorical => Except.error (column ++ " sayısal bir kolon değil")
      | Dtype.numeric =>
        match meanQ (numValsAt f i) with
        | none => Except.ok (f, f)
        | some v => Except.ok (fillNullsAt f i (Cell.num v), fillNullsAt f i (Cell.num v))
    else if strategy = "median" then
      match (f.schema.getD i ("", Dtype.numeric)).2 with
      | Dtype.categorical => Except.error (column ++ " sayısal bir kolon değil")
      | Dtype.numeric =>
        match quantile (numValsAt f i) 1 2 with
        | none => Except.ok (f, f)
        | some v => Except.ok (fillNullsAt f i (Cell.num v), fillNullsAt f i (Cell.num v))
    else if strategy = "mode" then
      match modeCell (nonNullCells (cellsAt f i)) with
      | none => Except.ok (f, f)
      | some v => Except.ok (fillNullsAt f i v, fillNullsAt f i v)
    else
      Except.error ("Geçersiz strateji: " ++ strategy ++
        ". Kullanılabilir stratejiler: [mean, median, mode]")

/-! ## DataCleaner.handle_missing_values (src/data_module.py) -/

/-- One iteration of the column loop of `handle_missing_values`: a column
with at least one null is filled according to the strategy.  `mean`/`median`
of a categorical column raise a pandas `TypeError`; `mode()[0]` of an
entirely-null column raises an indexing error; an unknown strategy raises
`ValueError`. -/
def hmvStep (strategy : String) (f : Frame) (i : ℕ) : Except String Frame :=
  if hasNullAt f i then
    if strategy = "mean" then
      match (f.schema.getD i ("", Dtype.numeric)).2 with
      | Dtype.categorical => Except.error "TypeError: could not compute mean of non-numeric column"
      | Dtype.numeric =>
        match meanQ (numValsAt f i) with
        | none => Except.ok f
        | some v => Except.ok (fillNullsAt f i (Cell.num v))
    else if strategy = "median" then
      match (f.schema.getD i ("", Dtype.numeric)).2 with
      | Dtype.categorical => Except.error "TypeError: could not compute median of non-numeric column"
      | Dtype.numeric =>
        match quantile (numValsAt f i) 1 2 with
        | none => Except.ok f
        | some v => Except.ok (fillNullsAt f i (Cell.num v))
    else if strategy = "mode" then
      match modeCell (nonNullCells (cellsAt f i)) with
      | none => Except.error "KeyError: 0"
      | some v => Except.ok (fillNullsAt f i v)
    else Except.error ("Bilinmeyen strateji: " ++ strategy)
  else Except.ok f

/-- The column loop of `handle_missing_values` over the column indices. -/
def hmvLoop (strategy : String) : Frame → List ℕ → Except String Frame
  | f, [] => Except.ok f
  | f, i :: is =>
    match hmvStep strategy f i with
    | Except.error e => Except.error e
    | Except.ok g => hmvLoop strategy g is

/-- `DataCleaner.handle_missing_values` of src/data_module.py.  `BaseCleaner`
stores the caller’s dataframe without copying and the fills use
`fillna(..., inplace=True)`, so on success the caller-visible dataframe — the
second component — is the same object as the returned one. -/
def handle_missing_values (f : Frame) (strategy : String) :
    Except String (Frame × Frame) :=
  match hmvLoop strategy f (List.range f.schema.length) with
  | Except.error e => Except.error e
  | Except.ok g => Except.ok (g, g)

/-! ## DataConfig (src/classes.py, src/data_module.py) -/

/-- Number of null cells in column `i`. -/
def nullCountAt (f : Frame) (i : ℕ) : ℕ :=
  ((cellsAt f i).filter (fun c => decide (c = Cell.null))).length

/-- Helper for `get_null_count`, walking the schema with its index. -/
def nullCountAux (f : Frame) : ℕ → List (String × Dtype) → List (String × ℕ)
  | _, [] => []
  | i, p :: rest => (p.1, nullCountAt f i) :: nullCountAux f (i + 1) rest

/-- `DataConfig.get_null_count` of src/classes.py:
`self.df.isnull().sum().to_dict()` — one entry per column of the dataframe,
mapping the column name to its null-cell count, KEEPING columns whose count
is zero. -/
def get_null_count (f : Frame) : List (String × ℕ) :=
  nullCountAux f 0 f.schema

/-- `DataConfig.get_sample` of src/classes.py and src/data_module.py:
`self.df.sample(n=n)`.  pandas validates `n` against the population size
(`replace=False`) and raises `ValueError` when `n` exceeds the row count —
the request is rejected, not clamped.  The row indices chosen by the random
generator are modelled by the explicit argument `pick` (pandas draws `n`
distinct in-range indices). -/
def get_sample (f : Frame) (n : ℕ) (pick : List ℕ) : Except String Frame :=
  if f.rows.length < n then
    Except.error "Cannot take a larger sample than population when replace is False"
  else Except.ok (Frame.mk f.schema (pick.filterMap (fun i => f.rows.get? i)))

/-! ## Helper lemmas -/

/-- Reading cell `i` of a row mapped by `cellMapAux` applies the cell function
at the absolute index, provided the cell exists. -/
theorem cellMapAux_getD (h : ℕ → Cell → Cell) (r : List Cell) (k i : ℕ) (d : Cell)
    (hi : i < r.length) :
    (cellMapAux h k r).getD i d = h (k + i) (r.getD i d) := by
  induction r generalizing k i with
  | nil => simp at hi
  | cons c cs ih =>
    cases i with
    | zero => simp [cellMapAux, List.getD]
    | succ m =>
      have := ih (k + 1) m (by simpa using Nat.lt_of_succ_lt_succ hi)
      simp only [cellMapAux, List.getD_cons_succ, this, Nat.add_assoc, Nat.add_comm 1 m]

/-- The column of a frame whose rows are mapped cell-wise is the cell-wise
image of the original column, provided every row has the cell. -/
theorem cellsAt_mapFrame (f : Frame) (h : ℕ → Cell → Cell) (i : ℕ)
    (hw : ∀ r ∈ f.rows, i < r.length) :
    cellsAt (Frame.mk f.schema (f.rows.map (cellMapAux h 0))) i =
      (cellsAt f i).map (h i) := by
  unfold cellsAt
  simp only [List.map_map]
  apply List.map_congr_left
  intro r hr
  simpa using cellMapAux_getD h r 0 i Cell.null (hw r hr)

/-- A membership-based characterisation of `listMin`. -/
theorem listMin_mem : ∀ {l : List ℚ} {v : ℚ}, listMin l = some v → v ∈ l := by
  intro l
  induction l with
  | nil => intro v hv; simp [listMin] at hv
  | cons x xs ih =>
    intro v hv
    simp only [listMin] at hv
    cases hm : listMin xs with
    | none => rw [hm] at hv; simp at hv; simp [hv]
    | some m =>
      rw [hm] at hv
      simp at hv
      rcases min_cases x m with ⟨he, _⟩ | ⟨he, _⟩
      · rw [he] at hv; simp [hv]
      · rw [he] at hv; right; rw [← hv]; exact ih hm

/-- `listMin` is a lower bound. -/
theorem listMin_le : ∀ {l : List ℚ} {v x : ℚ}, listMin l = some v → x ∈ l → v ≤ x := by
  intro l
  induction l with
  | nil => intro v x _ hx; simp at hx
  | cons y ys ih =>
    intro v x hv hx
    simp only [listMin] at hv
    rcases List.mem_cons.mp hx with rfl | hxs
    · cases hm : listMin ys with
      | none => rw [hm] at hv; simp at hv; rw [← hv]
      | some m => rw [hm] at hv; simp at hv; rw [← hv]; exact min_le_left _ _
    · cases hm : listMin ys with
      | none =>
        cases ys with
        | nil => simp at hxs
        | cons z zs => simp [listMin] at hm
      | some m =>
        rw [hm] at hv; simp at hv
        calc v = min y m := hv.symm
        _ ≤ m := min_le_right _ _
        _ ≤ x := ih hm hxs

/-- `listMin` of a nonempty list exists. -/
theorem listMin_isSome (x : ℚ) (xs : List ℚ) : ∃ v, listMin (x :: xs) = some v := by
  simp [listMin]

/-- `listMin` returns any member that is a lower bound. -/
theorem listMin_eq_some {l : List ℚ} {v : ℚ} (hv : v ∈ l) (hb : ∀ x ∈ l, v ≤ x) :
    listMin l = some v := by
  cases l with
  | nil => simp at hv
  | cons x xs =>
    obtain ⟨m, hm⟩ := listMin_isSome x xs
    have h1 : v ≤ m := hb m (listMin_mem hm)
    have h2 : m ≤ v := listMin_le hm hv
    rw [hm, le_antisymm h2 h1]

/-- A membership-based characterisation of `listMax`. -/
theorem listMax_mem : ∀ {l : List ℚ} {v : ℚ}, listMax l = some v → v ∈ l := by
  intro l
  induction l with
  | nil => intro v hv; simp [listMax] at hv
  | cons x xs ih =>
    intro v hv
    simp only [listMax] at hv
    cases hm : listMax xs with
    | none => rw [hm] at hv; simp at hv; simp [hv]
    | some m =>
      rw [hm] at hv
      simp at hv
      rcases max_cases x m with ⟨he, _⟩ | ⟨he, _⟩
      · rw [he] at hv; simp [hv]
      · rw [he] at hv; right; rw [← hv]; exact ih hm

/-- `listMax` is an upper bound. -/
theorem listMax_ge : ∀ {l : List ℚ} {v x : ℚ}, listMax l = some v → x ∈ l → x ≤ v := by
  intro l
  induction l with
  | nil => intro v x _ hx; simp at hx
  | cons y ys ih =>
    intro v x hv hx
    simp only [listMax] at hv
    rcases List.mem_cons.mp hx with rfl | hxs
    · cases hm : listMax ys with
      | none => rw [hm] at hv; simp at hv; rw [← hv]
      | some m => rw [hm] at hv; simp at hv; rw [← hv]; exact le_max_left _ _
    · cases hm : listMax ys with
      | none =>
        cases ys with
        | nil => simp at hxs
        | cons z zs => simp [listMax] at hm
      | some m =>
        rw [hm] at hv; simp at hv
        calc x ≤ m := ih hm hxs
        _ ≤ max y m := le_max_right _ _
        _ = v := hv

/-- `listMax` of a nonempty list exists. -/
theorem listMax_isSome (x : ℚ) (xs : List ℚ) : ∃ v, listMax (x :: xs) = some v := by
  simp [listMax]

/-- `listMax` returns any member that is an upper bound. -/
theorem listMax_eq_some {l : List ℚ} {v : ℚ} (hv : v ∈ l) (hb : ∀ x ∈ l, x ≤ v) :
    listMax l = some v := by
  cases l with
  | nil => simp at hv
  | cons x xs =>
    obtain ⟨m, hm⟩ := listMax_isSome x xs
    have h1 : m ≤ v := hb m (listMax_mem hm)
    have h2 : v ≤ m := listMax_ge hm hv
    rw [hm, le_antisymm h1 h2]

/-- Sum of a constant list. -/
theorem sum_of_constant {l : List ℚ} {v : ℚ} (h : ∀ x ∈ l, x = v) :
    l.sum = (l.length : ℚ) * v := by
  induction l with
  | nil => simp
  | cons x xs ih =>
    have hx := h x (by simp)
    have ihs := ih (fun y hy => h y (by simp [hy]))
    simp [hx, ihs, add_mul]
    ring

/-! ## Claim C3 -/

/-- The two-column frame witnessing the order sensitivity of sequential
outlier filtering. -/
def frC3 : Frame :=
  Frame.mk [("a", Dtype.numeric), ("b", Dtype.numeric)]
    [[Cell.num 0, Cell.num 0], [Cell.num 0, Cell.num 1], [Cell.num 0, Cell.num 2],
     [Cell.num 0, Cell.num 10], [Cell.num 100, Cell.num 50]]

/-- C3: multi-column outlier filtering is sequential — for both the IQR and
the z-score strategies, filtering `c :: cs` first filters on `c` and then
runs the remaining columns on the already-filtered dataframe, so each later
column’s bounds come from the filtered data in caller order; consequently,
on the concrete dataset `frC3`, IQR-filtering the columns as `[a, b]` retains
a different row set (3 rows) than `[b, a]` (4 rows). -/
theorem c3_sequential_order_dependent :
    (∀ (f : Frame) (c : String) (cs : List String) (t : ℚ),
      remove_outliers f "IQR" (c :: cs) t =
        match iqrFilterStep f c with
        | Except.error e => Except.error e
        | Except.ok g => remove_outliers g "IQR" cs t) ∧
    (∀ (f : Frame) (c : String) (cs : List String) (t : ℚ),
      remove_outliers f "zscore" (c :: cs) t =
        match zscoreFilterStep t f c with
        | Except.error e => Except.error e
        | Except.ok g => remove_outliers g "zscore" cs t) ∧
    remove_outliers frC3 "IQR" ["a", "b"] 3 =
      Except.ok (Frame.mk [("a", Dtype.numeric), ("b", Dtype.numeric)]
        [[Cell.num 0, Cell.num 0], [Cell.num 0, Cell.num 1], [Cell.num 0, Cell.num 2]]) ∧
    remove_outliers frC3 "IQR" ["b", "a"] 3 =
      Except.ok (Frame.mk [("a", Dtype.numeric), ("b", Dtype.numeric)]
        [[Cell.num 0, Cell.num 0], [Cell.num 0, Cell.num 1], [Cell.num 0, Cell.num 2],
         [Cell.num 0, Cell.num 10]]) ∧
    (Frame.mk [("a", Dtype.numeric), ("b", Dtype.numeric)]
        ([[Cell.num 0, Cell.num 0], [Cell.num 0, Cell.num 1], [Cell.num 0, Cell.num 2]] :
          List (List Cell)) ≠
      Frame.mk [("a", Dtype.numeric), ("b", Dtype.numeric)]
        [[Cell.num 0, Cell.num 0], [Cell.num 0, Cell.num 1], [Cell.num 0, Cell.num 2],
         [Cell.num 0, Cell.num 10]]) := by
  refine ⟨?_, ?_, ?_, ?_, ?_⟩
  · intro f c cs t
    cases h : iqrFilterStep f c <;> simp [remove_outliers, iqrLoop, h]
  · intro f c cs t
    cases h : zscoreFilterStep t f c <;> simp [remove_outliers, zscoreLoop, h]
  · have ha : ∀ rs, colIndex (Frame.mk [("a", Dtype.numeric), ("b", Dtype.numeric)] rs) "a"
        = some 0 := fun rs => rfl
    have hb : ∀ rs, colIndex (Frame.mk [("a", Dtype.numeric), ("b", Dtype.numeric)] rs) "b"
        = some 1 := fun rs => rfl
    norm_num [remove_outliers, iqrLoop, iqrFilterStep, iqrPred, quantile, sortAsc,
      insertSorted, numValsAt, cellsAt, toNum, filterRows, frC3, ha, hb,
      List.filterMap_cons, List.filter_cons, List.foldr_cons, List.foldr_nil,
      List.getElem?_cons_zero, List.getElem?_cons_succ, Option.getD_some]
  · have ha : ∀ rs, colIndex (Frame.mk [("a", Dtype.numeric), ("b", Dtype.numeric)] rs) "a"
        = some 0 := fun rs => rfl
    have hb : ∀ rs, colIndex (Frame.mk [("a", Dtype.numeric), ("b", Dtype.numeric)] rs) "b"
        = some 1 := fun rs => rfl
    norm_num [remove_outliers, iqrLoop, iqrFilterStep, iqrPred, quantile, sortAsc,
      insertSorted, numValsAt, cellsAt, toNum, filterRows, frC3, ha, hb,
      List.filterMap_cons, List.filter_cons, List.foldr_cons, List.foldr_nil,
      List.getElem?_cons_zero, List.getElem?_cons_succ, Option.getD_some]
  · intro h
    have := congrArg (fun fr => fr.rows.length) h
    simp at this

/-! ## Claim C6 -/

/-- C6: single-column IQR filtering retains exactly the rows whose value in
the column lies within `[Q1 - 1.5*IQR, Q3 + 1.5*IQR]`, the quartiles being
computed from the full input column, and the retained rows form a sublist of
the input rows (original relative order). -/
theorem c6_iqr_single_column (f : Frame) (c : String) (t q1v q3v : ℚ) (i : ℕ)
    (hidx : colIndex f c = some i)
    (hdt : (f.schema.getD i ("", Dtype.numeric)).2 = Dtype.numeric)
    (h1 : quantile (numValsAt f i) 1 4 = some q1v)
    (h3 : quantile (numValsAt f i) 3 4 = some q3v) :
    remove_outliers f "IQR" [c] t =
      Except.ok (filterRows f
        (iqrPred i (q1v - 3/2 * (q3v - q1v)) (q3v + 3/2 * (q3v - q1v)))) ∧
    (filterRows f
        (iqrPred i (q1v - 3/2 * (q3v - q1v)) (q3v + 3/2 * (q3v - q1v)))).rows.Sublist
      f.rows := by
  rw [List.getD_eq_getElem?_getD] at hdt
  constructor
  · simp [remove_outliers, iqrLoop, iqrFilterStep, hidx, hdt, h1, h3]
  · exact List.filter_sublist _

/-- The single-column frame used to witness C6: quartiles 1 and 3, bounds
[-2, 6], so the row with value 100 is removed and the others stay in order. -/
def fr6 : Frame :=
  Frame.mk [("v", Dtype.numeric)]
    [[Cell.num 0], [Cell.num 1], [Cell.num 2], [Cell.num 3], [Cell.num 100]]

/-- Witness for C6 at the concrete dataset `fr6`. -/
theorem c6_iqr_single_column_witness :
    remove_outliers fr6 "IQR" ["v"] 3 =
      Except.ok (filterRows fr6
        (iqrPred 0 (1 - 3/2 * (3 - 1)) (3 + 3/2 * (3 - 1)))) ∧
    (filterRows fr6
        (iqrPred 0 (1 - 3/2 * (3 - 1)) (3 + 3/2 * (3 - 1)))).rows.Sublist
      fr6.rows :=
  c6_iqr_single_column fr6 "v" 3 1 3 0 rfl rfl
    (by norm_num [quantile, sortAsc, insertSorted, numValsAt, cellsAt, toNum, fr6,
      List.filterMap_cons, List.foldr_cons, List.foldr_nil,
      List.getElem?_cons_zero, List.getElem?_cons_succ, Option.getD_some])
    (by norm_num [quantile, sortAsc, insertSorted, numValsAt, cellsAt, toNum, fr6,
      List.filterMap_cons, List.foldr_cons, List.foldr_nil,
      List.getElem?_cons_zero, List.getElem?_cons_succ, Option.getD_some])

/-! ## Claim C10 -/

/-- C10: z-score outlier filtering of a column whose values are all equal
divides by a zero (ddof-1) standard deviation; the resulting z-scores are
undefined (NaN) and fail the threshold comparison, so every row of the
dataset is removed. -/
theorem c10_zscore_constant_all_removed (f : Frame) (c : String) (t : ℚ) (i : ℕ)
    (hidx : colIndex f c = some i)
    (hdt : (f.schema.getD i ("", Dtype.numeric)).2 = Dtype.numeric)
    (hconst : ∀ x ∈ numValsAt f i, ∀ y ∈ numValsAt f i, x = y) :
    remove_outliers f "zscore" [c] t = Except.ok (Frame.mk f.schema []) := by
  have hpred : ∀ r ∈ f.rows,
      zscorePred i (numValsAt f i).length
        ((numValsAt f i).sum / ((numValsAt f i).length : ℚ))
        (((numValsAt f i).map
            (fun x => (x - (numValsAt f i).sum / ((numValsAt f i).length : ℚ)) ^ 2)).sum /
          (((numValsAt f i).length : ℚ) - 1)) t r = false := by
    intro r hr
    unfold zscorePred
    cases hcell : r.getD i Cell.null with
    | str s => simp
    | null => simp
    | num x =>
      simp only
      by_cases hn : 2 ≤ (numValsAt f i).length
      · have hxmem : x ∈ numValsAt f i := by
          unfold numValsAt
          exact List.mem_filterMap.mpr
            ⟨Cell.num x, by
              unfold cellsAt
              exact List.mem_map.mpr ⟨r, hr, hcell⟩, rfl⟩
        have hne : ((numValsAt f i).length : ℚ) ≠ 0 := by
          have : (0 : ℕ) < (numValsAt f i).length := by omega
          exact_mod_cast Nat.pos_iff_ne_zero.mp this
        have hmean : (numValsAt f i).sum / ((numValsAt f i).length : ℚ) = x := by
          rw [sum_of_constant (fun y hy => hconst y hy x hxmem)]
          field_simp
        have hsv : ((numValsAt f i).map
            (fun z => (z - (numValsAt f i).sum / ((numValsAt f i).length : ℚ)) ^ 2)).sum /
            (((numValsAt f i).length : ℚ) - 1) = 0 := by
          have hz : ((numValsAt f i).map
              (fun z => (z - (numValsAt f i).sum / ((numValsAt f i).length : ℚ)) ^ 2)).sum
              = 0 := by
            apply List.sum_eq_zero
            intro z hz
            rcases List.mem_map.mp hz with ⟨y, hy, hzy⟩
            rw [← hzy, hmean, hconst y hy x hxmem]
            ring
          rw [hz, zero_div]
        rw [hsv]
        simp
      · have : decide (2 ≤ (numValsAt f i).length) = false := by
          simpa using hn
        rw [this]
        simp
  have hfilter : f.rows.filter
      (zscorePred i (numValsAt f i).length
        ((numValsAt f i).sum / ((numValsAt f i).length : ℚ))
        (((numValsAt f i).map
            (fun x => (x - (numValsAt f i).sum / ((numValsAt f i).length : ℚ)) ^ 2)).sum /
          (((numValsAt f i).length : ℚ) - 1)) t) = [] := by
    rw [List.filter_eq_nil_iff]
    intro r hr
    simp [hpred r hr]
  rw [List.getD_eq_getElem?_getD] at hdt
  simp [remove_outliers, zscoreLoop, zscoreFilterStep, hidx, hdt, filterRows, hfilter]

/-- The constant single-column frame used to witness C10. -/
def fr10 : Frame :=
  Frame.mk [("k", Dtype.numeric)] [[Cell.num 5], [Cell.num 5], [Cell.num 5]]

/-- Witness for C10 at the concrete dataset `fr10`: every row is removed. -/
theorem c10_zscore_constant_all_removed_witness :
    remove_outliers fr10 "zscore" ["k"] 3 = Except.ok (Frame.mk fr10.schema []) :=
  c10_zscore_constant_all_removed fr10 "k" 3 0 rfl rfl
    (by
      intro x hx y hy
      have hv : numValsAt fr10 0 = [5, 5, 5] := by
        norm_num [numValsAt, cellsAt, toNum, fr10, List.filterMap_cons]
      rw [hv] at hx hy
      simp at hx hy
      rw [hx, hy])

/-! ## Claim C8 -/

/-- Helper: `nullCountAux` walks the schema pairing each name with the null
count of its column index. -/
theorem nullCountAux_get? (f : Frame) :
    ∀ (sch : List (String × Dtype)) (i k : ℕ),
      (nullCountAux f i sch).get? k =
        (sch.get? k).map (fun p => (p.1, nullCountAt f (i + k))) := by
  intro sch
  induction sch with
  | nil => intro i k; simp [nullCountAux]
  | cons p rest ih =>
    intro i k
    cases k with
    | zero => simp [nullCountAux]
    | succ m =>
      simp only [nullCountAux, List.get?_cons_succ, ih (i + 1) m]
      have : i + 1 + m = i + (m + 1) := by omega
      rw [this]

/-- C8 (amended): `get_null_count` returns one entry per column of the
dataframe — entry `k` is the `k`-th column’s name paired with its null-cell
count, columns with zero nulls included. -/
theorem c8_null_counts_amended (f : Frame) (k : ℕ) :
    (get_null_count f).get? k =
      (f.schema.get? k).map (fun p => (p.1, nullCountAt f k)) := by
  unfold get_null_count
  have := nullCountAux_get? f f.schema 0 k
  simpa using this

/-- A one-column frame with no nulls. -/
def fr8 : Frame :=
  Frame.mk [("a", Dtype.numeric)] [[Cell.num 1]]

/-- Counterexample to C8 as stated: a column with zero null cells is NOT
omitted — `get_null_count` still returns it, mapped to 0. -/
theorem c8_counterexample :
    get_null_count fr8 = [("a", 0)] ∧ nullCountAt fr8 0 = 0 := by
  constructor <;> rfl

/-! ## Claim C9 -/

/-- Helper: selecting rows by a list of in-range indices yields as many rows
as indices. -/
theorem length_filterMap_get (rows : List (List Cell)) :
    ∀ (pick : List ℕ), (∀ j ∈ pick, j < rows.length) →
      (pick.filterMap (fun i => rows.get? i)).length = pick.length := by
  intro pick
  induction pick with
  | nil => intro _; simp
  | cons j ps ih =>
    intro hall
    obtain ⟨r, hr⟩ : ∃ r, rows.get? j = some r := by
      have hj : j < rows.length := hall j (by simp)
      exact ⟨rows.get ⟨j, hj⟩, List.get?_eq_get hj⟩
    simp only [List.filterMap_cons, hr, List.length_cons]
    rw [ih (fun x hx => hall x (by simp [hx]))]

/-- C9 (amended): `get_sample` REJECTS a request larger than the row count
with pandas’ ValueError (the request is not clamped); when `n` is at most the
row count it succeeds and returns the rows selected by the random generator,
which number exactly `n` when the generator supplies `n` distinct in-range
indices. -/
theorem c9_sample_amended (f : Frame) (n : ℕ) (pick : List ℕ) :
    (f.rows.length < n →
      get_sample f n pick =
        Except.error "Cannot take a larger sample than population when replace is False") ∧
    (¬ f.rows.length < n →
      get_sample f n pick =
        Except.ok (Frame.mk f.schema (pick.filterMap (fun i => f.rows.get? i)))) ∧
    (¬ f.rows.length < n → pick.length = n → (∀ j ∈ pick, j < f.rows.length) →
      ∃ g, get_sample f n pick = Except.ok g ∧ g.rows.length = n) := by
  refine ⟨?_, ?_, ?_⟩
  · intro h; simp [get_sample, h]
  · intro h; simp [get_sample, h]
  · intro h hlen hall
    refine ⟨Frame.mk f.schema (pick.filterMap (fun i => f.rows.get? i)), ?_, ?_⟩
    · simp [get_sample, h]
    · show (pick.filterMap (fun i => f.rows.get? i)).length = n
      rw [length_filterMap_get f.rows pick hall, hlen]

/-- A one-row frame for the sampling counterexample. -/
def fr9 : Frame :=
  Frame.mk [("a", Dtype.numeric)] [[Cell.num 1]]

/-- Counterexample to C9 as stated: requesting 2 rows from a 1-row dataset
fails with pandas’ ValueError instead of being clamped to 1 row. -/
theorem c9_counterexample :
    get_sample fr9 2 [0, 1] =
      Except.error "Cannot take a larger sample than population when replace is False" := by
  rfl

/-- Witness for the amended C9: the error branch at `n = 2` on a 1-row frame
and the success branch at `n = 1`. -/
theorem c9_sample_amended_witness :
    get_sample fr9 2 [0] =
      Except.error "Cannot take a larger sample than population when replace is False" ∧
    ∃ g, get_sample fr9 1 [0] = Except.ok g ∧ g.rows.length = 1 :=
  ⟨(c9_sample_amended fr9 2 [0]).1 (by decide),
   (c9_sample_amended fr9 1 [0]).2.2 (by decide) rfl (by decide)⟩

/-! ## Claim C5 -/

/-- C5 (amended): a successful `DataPipeline.run` stores the final dataframe
back into the pipeline object — the pipeline state after the run is the
result, not the originally supplied dataframe, so a second `run` operates on
the first run’s output. -/
theorem c5_pipeline_state_amended (st : DataPipeline)
    (steps : List (String × StepParams)) (r : Frame) (p2 : DataPipeline)
    (h : DataPipeline.run st steps = Except.ok (r, p2)) : p2.df = r := by
  unfold DataPipeline.run at h
  cases hl : runLoop st.df steps with
  | error e => rw [hl] at h; simp at h
  | ok g =>
    rw [hl] at h
    simp at h
    rw [← h.1, ← h.2]

/-- The frame held by the pipeline of the C5 counterexample: one numeric
column with a null. -/
def frC5 : Frame :=
  Frame.mk [("a", Dtype.numeric)] [[Cell.num 0], [Cell.num 1], [Cell.null]]

/-- The C5 pipeline result: the null is filled with the mean 1/2. -/
def frC5res : Frame :=
  Frame.mk [("a", Dtype.numeric)] [[Cell.num 0], [Cell.num 1], [Cell.num (1/2)]]

/-- Counterexample to C5 as stated: after one `run` with a mean-imputation
cleaner step, the pipeline object holds the transformed dataframe, which
differs from the originally supplied one — the state persists into the next
`run`. -/
theorem c5_counterexample :
    DataPipeline.run (DataPipeline.mk frC5)
        [("cleaner", StepParams.mk (some "mean") none none none)] =
      Except.ok (frC5res, DataPipeline.mk frC5res) ∧ frC5res ≠ frC5 := by
  constructor
  · norm_num [DataPipeline.run, runLoop, runStep, cleanerExecute, cellMapAux,
      cleanCellAt, hasNullAt, numFillVal, meanQ, numValsAt, cellsAt, toNum,
      frC5, frC5res, List.filterMap_cons, List.any_cons, List.getD]
  · intro h
    have := congrArg (fun fr => fr.rows.get? 2) h
    simp [frC5res, frC5] at this

/-- Witness for the amended C5 at the concrete pipeline of the
counterexample dataset. -/
theorem c5_pipeline_state_amended_witness :
    (DataPipeline.mk frC5res).df = frC5res :=
  c5_pipeline_state_amended (DataPipeline.mk frC5)
    [("cleaner", StepParams.mk (some "mean") none none none)] frC5res
    (DataPipeline.mk frC5res)
    (by norm_num [DataPipeline.run, runLoop, runStep, cleanerExecute, cellMapAux,
      cleanCellAt, hasNullAt, numFillVal, meanQ, numValsAt, cellsAt, toNum,
      frC5, frC5res, List.filterMap_cons, List.any_cons, List.getD])

/-! ## Claim C2 -/

/-- A numeric column with a null, used to show the imputer transforms under
an unknown strategy name instead of failing. -/
def frC2 : Frame :=
  Frame.mk [("a", Dtype.numeric)] [[Cell.num 1], [Cell.null]]

/-- `frC2` after the catch-all constant-zero fill. -/
def frC2filled : Frame :=
  Frame.mk [("a", Dtype.numeric)] [[Cell.num 1], [Cell.num 0]]

/-- Counterexample to C2 as stated: invoking imputation with the unknown
strategy name "bogus" does NOT fail — `DataCleaner.execute` falls into its
`else` branch and fills the nulls with 0, performing a transformation. -/
theorem c2_counterexample :
    (cleanerExecute frC2 "bogus" "mode").1 = frC2filled ∧ frC2filled ≠ frC2 := by
  constructor
  · have hnf : numFillVal "bogus" [1] = some 0 := by decide
    norm_num [cleanerExecute, cellMapAux, cleanCellAt, hasNullAt,
      numValsAt, cellsAt, toNum, frC2, frC2filled, hnf,
      List.filterMap_cons, List.any_cons, List.getD]
  · intro h
    have := congrArg (fun fr => fr.rows.get? 1) h
    simp [frC2filled, frC2] at this

/-- C2 (amended): only the outlier filter rejects an unknown strategy with a
message enumerating its registry — which is `{IQR, zscore}`, not
`{iqr, zscore}`; the scaler rejects (when at least one column is to be
scaled) with a message that does not enumerate the valid names; the imputer
never rejects: any unrecognized numeric strategy fills with the constant 0
and any unrecognized categorical strategy fills with the constant
"Unknown". -/
theorem c2_unknown_strategy_amended :
    (∀ (f : Frame) (cols : List String) (t : ℚ) (s : String),
      ¬ s = "IQR" → ¬ s = "zscore" →
      remove_outliers f s cols t =
        Except.error ("Geçersiz strateji: " ++ s ++
          ". Kullanılabilir stratejiler: [IQR, zscore]")) ∧
    (∀ (f : Frame) (s : String) (ex : List String),
      ¬ s = "minmax" → ¬ s = "standard" → ¬ s = "robust" →
      ¬ colsToScale f ex = [] →
      scalerExecute f s ex = Except.error ("Unknown strategy: " ++ s)) ∧
    (∀ (s : String) (vals : List ℚ),
      ¬ s = "mean" → ¬ s = "median" → numFillVal s vals = some 0) ∧
    (∀ (s : String) (cells : List Cell),
      ¬ s = "mode" → catFillVal s cells = Cell.str "Unknown") := by
  refine ⟨?_, ?_, ?_, ?_⟩
  · intro f cols t s h1 h2
    simp [remove_outliers, h1, h2]
  · intro f s ex h1 h2 h3 h0
    have hor : ¬ (s = "minmax" ∨ s = "standard" ∨ s = "robust") := by
      intro hc; rcases hc with hc | hc | hc <;> [exact h1 hc; exact h2 hc; exact h3 hc]
    simp [scalerExecute, h0, hor]
  · intro s vals h1 h2
    simp [numFillVal, h1, h2]
  · intro s cells h1
    simp [catFillVal, h1]

/-- Witness for the amended C2 at the strategy name "bogus" (and, for the
scaler branch, the one-column numeric frame `frC2`). -/
theorem c2_unknown_strategy_amended_witness :
    remove_outliers frC2 "bogus" ["a"] 3 =
      Except.error ("Geçersiz strateji: " ++ "bogus" ++
        ". Kullanılabilir stratejiler: [IQR, zscore]") ∧
    scalerExecute frC2 "bogus" [] = Except.error ("Unknown strategy: " ++ "bogus") ∧
    numFillVal "bogus" [1] = some 0 ∧
    catFillVal "bogus" [Cell.null] = Cell.str "Unknown" :=
  ⟨(c2_unknown_strategy_amended.1 frC2 ["a"] 3 "bogus" (by decide) (by decide)),
   (c2_unknown_strategy_amended.2.1 frC2 "bogus" [] (by decide) (by decide) (by decide)
      (by intro h; simp [colsToScale, frC2] at h)),
   (c2_unknown_strategy_amended.2.2.1 "bogus" [1] (by decide) (by decide)),
   (c2_unknown_strategy_amended.2.2.2 "bogus" [Cell.null] (by decide))⟩

/-! ## Claim C1 -/

/-- C1 (amended): the `cleaner_scaler.py` components copy on construction and
leave the caller’s dataframe unchanged, but the imputers of
`data_cleaner.py` and `data_module.py` fill in place: the caller-visible
dataframe after the call is the returned (mutated) dataframe itself, and it
differs from the original whenever a null cell of a numeric column with at
least one value is mean-filled. -/
theorem c1_copy_on_transform_amended :
    (∀ (f : Frame) (ns cs : String), (cleanerExecute f ns cs).2 = f) ∧
    (∀ (f : Frame) (s : String) (ex : List String) (r : Frame × Frame),
      scalerExecute f s ex = Except.ok r → r.2 = f) ∧
    (∀ (f : Frame) (c s : String) (r : Frame × Frame),
      fill_nulls f c s = Except.ok r → r.2 = r.1) ∧
    (∀ (f : Frame) (s : String) (r : Frame × Frame),
      handle_missing_values f s = Except.ok r → r.2 = r.1) ∧
    (∀ (f : Frame) (c : String) (i j : ℕ) (row : List Cell),
      colIndex f c = some i →
      (f.schema.getD i ("", Dtype.numeric)).2 = Dtype.numeric →
      f.rows.get? j = some row → i < row.length →
      row.getD i Cell.null = Cell.null →
      numValsAt f i ≠ [] →
      ∃ g, fill_nulls f c "mean" = Except.ok (g, g) ∧ g ≠ f) := by
  refine ⟨?_, ?_, ?_, ?_, ?_⟩
  · intro f ns cs; rfl
  · intro f s ex r h
    simp only [scalerExecute] at h
    by_cases h0 : colsToScale f ex = []
    · rw [if_pos h0] at h
      simp at h
      rw [← h]
    · rw [if_neg h0] at h
      by_cases hs : s = "minmax" ∨ s = "standard" ∨ s = "robust"
      · rw [if_pos hs] at h
        simp at h
        rw [← h]
      · rw [if_neg hs] at h
        simp at h
  · intro f c s r h
    unfold fill_nulls at h
    split at h
    · simp at h
    · split_ifs at h
      all_goals try split at h
      all_goals try split at h
      all_goals simp at h
      all_goals rw [← h]
  · intro f s r h
    unfold handle_missing_values at h
    split at h
    · simp at h
    · simp at h
      rw [← h]
  · intro f c i j row hidx hdt hrow hilen hnull hvne
    obtain ⟨m, hm⟩ : ∃ m, meanQ (numValsAt f i) = some m := by
      cases hv : numValsAt f i with
      | nil => exact absurd hv hvne
      | cons a as => exact ⟨_, rfl⟩
    rw [List.getD_eq_getElem?_getD] at hdt
    refine ⟨fillNullsAt f i (Cell.num m), ?_, ?_⟩
    · simp [fill_nulls, hidx, hdt, hm]
    · intro hgf
      have hg : (fillNullsAt f i (Cell.num m)).rows.get? j =
          some (cellMapAux
            (fun k cell => if k = i ∧ cell = Cell.null then Cell.num m else cell) 0 row) := by
        unfold fillNullsAt
        rw [List.get?_map, hrow]
        rfl
      rw [hgf, hrow] at hg
      have hre : row = cellMapAux
          (fun k cell => if k = i ∧ cell = Cell.null then Cell.num m else cell) 0 row := by
        injection hg
      have hc := congrArg (fun r => r.getD i Cell.null) hre
      simp only at hc
      rw [cellMapAux_getD _ row 0 i Cell.null hilen, hnull] at hc
      simp at hc

/-- A numeric column with a null and a value, mutated in place by the
mean-fill of `data_cleaner.py`. -/
def frC1 : Frame :=
  Frame.mk [("a", Dtype.numeric)] [[Cell.num 1], [Cell.null]]

/-- `frC1` after the in-place mean fill. -/
def frC1f : Frame :=
  Frame.mk [("a", Dtype.numeric)] [[Cell.num 1], [Cell.num 1]]

/-- Counterexample to C1 as stated: `ColumnCleaner._fill_nulls_with_mean`
fills the caller’s dataframe in place — after the call the caller-visible
dataframe is the filled one, which differs from the original. -/
theorem c1_counterexample :
    fill_nulls frC1 "a" "mean" = Except.ok (frC1f, frC1f) ∧ frC1f ≠ frC1 := by
  constructor
  · have hidx : ∀ rs, colIndex (Frame.mk [("a", Dtype.numeric)] rs) "a" = some 0 :=
      fun rs => rfl
    norm_num [fill_nulls, hidx, fillNullsAt, cellMapAux, meanQ, numValsAt,
      cellsAt, toNum, frC1, frC1f, List.filterMap_cons, List.getD]
  · intro h
    have := congrArg (fun fr => fr.rows.get? 1) h
    simp [frC1f, frC1] at this

/-- Witness for the amended C1 at the concrete dataset `frC1`. -/
theorem c1_copy_on_transform_amended_witness :
    (cleanerExecute frC1 "mean" "mode").2 = frC1 ∧
    ∃ g, fill_nulls frC1 "a" "mean" = Except.ok (g, g) ∧ g ≠ frC1 :=
  ⟨c1_copy_on_transform_amended.1 frC1 "mean" "mode",
   c1_copy_on_transform_amended.2.2.2.2 frC1 "a" 0 1 [Cell.null] rfl rfl rfl
     (by decide) rfl
     (by norm_num [numValsAt, cellsAt, toNum, frC1, List.filterMap_cons])⟩

/-! ## Claim C4 -/

/-- Helper: the non-null cells of an entirely-null column form the empty
list. -/
theorem nonNullCells_of_all_null {l : List Cell} (h : ∀ cell ∈ l, cell = Cell.null) :
    nonNullCells l = [] := by
  rw [nonNullCells, List.filter_eq_nil_iff]
  intro c hc
  simp [h c hc]

/-- C4 (amended): for an entirely-null column, `ColumnCleaner`’s mode
imputation leaves the dataframe unchanged, raising no error — but no
condition is reported either; `cleaner_scaler.py`’s `DataCleaner`, by
contrast, fills every cell of an entirely-null categorical column with the
invented sentinel string "Missing". -/
theorem c4_all_null_mode_amended :
    (∀ (f : Frame) (c : String) (i : ℕ),
      colIndex f c = some i →
      (∀ cell ∈ cellsAt f i, cell = Cell.null) →
      fill_nulls f c "mode" = Except.ok (f, f)) ∧
    (∀ (f : Frame) (ns : String) (i : ℕ),
      (f.schema.getD i ("", Dtype.numeric)).2 = Dtype.categorical →
      (∀ r ∈ f.rows, i < r.length) →
      (∀ cell ∈ cellsAt f i, cell = Cell.null) →
      cellsAt ((cleanerExecute f ns "mode").1) i =
        (cellsAt f i).map (fun _ => Cell.str "Missing")) := by
  constructor
  · intro f c i hidx hall
    have hmode : modeCell (nonNullCells (cellsAt f i)) = none := by
      rw [nonNullCells_of_all_null hall]
      rfl
    simp [fill_nulls, hidx, hmode]
  · intro f ns i hdt hw hall
    show cellsAt (Frame.mk f.schema (f.rows.map (cellMapAux (cleanCellAt f ns "mode") 0))) i
      = (cellsAt f i).map (fun _ => Cell.str "Missing")
    rw [cellsAt_mapFrame f (cleanCellAt f ns "mode") i hw]
    apply List.map_congr_left
    intro cell hcell
    have hcnull : cell = Cell.null := hall cell hcell
    have hnul : hasNullAt f i = true := by
      unfold hasNullAt
      rw [List.any_eq_true]
      exact ⟨cell, hcell, by simp [hcnull]⟩
    have hmode : modeCell (nonNullCells (cellsAt f i)) = none := by
      rw [nonNullCells_of_all_null hall]
      rfl
    rw [List.getD_eq_getElem?_getD] at hdt
    simp [cleanCellAt, hdt, hnul, hcnull, catFillVal, hmode]

/-- An entirely-null categorical column. -/
def frC4 : Frame :=
  Frame.mk [("k", Dtype.categorical)] [[Cell.null], [Cell.null]]

/-- `frC4` after `cleaner_scaler.py`’s mode imputation: the sentinel
"Missing" has been invented for every cell. -/
def frC4filled : Frame :=
  Frame.mk [("k", Dtype.categorical)] [[Cell.str "Missing"], [Cell.str "Missing"]]

/-- Counterexample to C4 as stated: `DataCleaner.execute` of
cleaner_scaler.py does NOT leave an entirely-null categorical column
unchanged under the mode strategy — it fills it with the invented sentinel
"Missing" (and no `NoFillValueAvailable` condition exists anywhere in the
code). -/
theorem c4_counterexample :
    (cleanerExecute frC4 "mean" "mode").1 = frC4filled ∧ frC4filled ≠ frC4 := by
  constructor
  · have hcf : catFillVal "mode" [Cell.null, Cell.null] = Cell.str "Missing" := by decide
    norm_num [cleanerExecute, cellMapAux, cleanCellAt, hasNullAt,
      cellsAt, frC4, frC4filled, hcf, List.any_cons, List.getD]
  · intro h
    have := congrArg (fun fr => fr.rows.get? 0) h
    simp [frC4filled, frC4] at this

/-- Witness for the amended C4: the entirely-null column of `frC4` under both
imputers. -/
theorem c4_all_null_mode_amended_witness :
    fill_nulls frC4 "k" "mode" = Except.ok (frC4, frC4) ∧
    cellsAt ((cleanerExecute frC4 "mean" "mode").1) 0 =
      (cellsAt frC4 0).map (fun _ => Cell.str "Missing") :=
  ⟨c4_all_null_mode_amended.1 frC4 "k" 0 rfl
     (by intro cell hcell; simpa [cellsAt, frC4] using hcell),
   c4_all_null_mode_amended.2 frC4 "mean" 0 rfl (by decide)
     (by intro cell hcell; simpa [cellsAt, frC4] using hcell)⟩

/-! ## Claim C7 -/

/-- Pointwise congruence for `filterMap`. -/
theorem filterMapCongr {α β : Type} {l : List α} {p q : α → Option β}
    (h : ∀ a ∈ l, p a = q a) : l.filterMap p = l.filterMap q := by
  induction l with
  | nil => rfl
  | cons x xs ih =>
    simp only [List.filterMap_cons, h x (by simp)]
    rw [ih (fun a ha => h a (by simp [ha]))]

/-- Helper: the non-null values of a scaled column are the pointwise
transforms of the original non-null values (the scaler leaves nulls null). -/
theorem numValsAt_scaled (f : Frame) (strategy : String) (cols : List String) (i : ℕ)
    (hw : ∀ r ∈ f.rows, i < r.length)
    (hname : (f.schema.getD i ("", Dtype.numeric)).1 ∈ cols) :
    numValsAt (Frame.mk f.schema
        (f.rows.map (cellMapAux (scaleCellAt f strategy cols) 0))) i =
      (numValsAt f i).map (scaleValFor strategy (numValsAt f i)) := by
  unfold numValsAt
  rw [cellsAt_mapFrame f _ i hw, List.filterMap_map, List.map_filterMap]
  apply filterMapCongr
  intro cell hcell
  rw [List.getD_eq_getElem?_getD] at hname
  cases cell with
  | num x => simp [Function.comp, scaleCellAt, hname, toNum, numValsAt]
  | str s => simp [Function.comp, scaleCellAt, hname, toNum, numValsAt]
  | null => simp [Function.comp, scaleCellAt, hname, toNum, numValsAt]

/-- C7: after min-max scaling, a numeric column that is scaled (not excluded)
and has at least two distinct values has minimum 0 and maximum 1, every value
being transformed to `(x - min) / (max - min)`. -/
theorem c7_minmax_unit_interval (f : Frame) (c : String) (exclude : List String)
    (i : ℕ)
    (hmem : (c, Dtype.numeric) ∈ f.schema)
    (hsch : f.schema.getD i ("", Dtype.numeric) = (c, Dtype.numeric))
    (hex : ¬ c ∈ exclude)
    (hw : ∀ r ∈ f.rows, i < r.length)
    (a b : ℚ) (ha : a ∈ numValsAt f i) (hb : b ∈ numValsAt f i) (hab : ¬ a = b) :
    ∃ g, scalerExecute f "minmax" exclude = Except.ok (g, f) ∧
      numValsAt g i = (numValsAt f i).map (minmaxVal (numValsAt f i)) ∧
      listMin (numValsAt g i) = some 0 ∧
      listMax (numValsAt g i) = some 1 ∧
      (∀ x : ℚ, minmaxVal (numValsAt f i) x =
        (x - (listMin (numValsAt f i)).getD 0) /
          ((listMax (numValsAt f i)).getD 0 - (listMin (numValsAt f i)).getD 0)) := by
  have hccols : c ∈ colsToScale f exclude := by
    unfold colsToScale
    apply List.mem_filter.mpr
    refine ⟨List.mem_map.mpr ⟨(c, Dtype.numeric), List.mem_filter.mpr ⟨hmem, by simp⟩, rfl⟩, ?_⟩
    simpa using hex
  have hne : ¬ colsToScale f exclude = [] := by
    intro h0
    rw [h0] at hccols
    simp at hccols
  obtain ⟨mn, hmn⟩ : ∃ mn, listMin (numValsAt f i) = some mn := by
    cases hv : numValsAt f i with
    | nil => rw [hv] at ha; simp at ha
    | cons x xs => exact listMin_isSome x xs
  obtain ⟨mx, hmx⟩ : ∃ mx, listMax (numValsAt f i) = some mx := by
    cases hv : numValsAt f i with
    | nil => rw [hv] at ha; simp at ha
    | cons x xs => exact listMax_isSome x xs
  have hlt : mn < mx := by
    rcases lt_or_eq_of_le (le_trans (listMin_le hmn ha) (listMax_ge hmx ha)) with h | h
    · exact h
    · exfalso
      apply hab
      have ha2 : a = mn := le_antisymm (by rw [h]; exact listMax_ge hmx ha) (listMin_le hmn ha)
      have hb2 : b = mn := le_antisymm (by rw [h]; exact listMax_ge hmx hb) (listMin_le hmn hb)
      rw [ha2, hb2]
  have hpos : (0 : ℚ) < mx - mn := sub_pos.mpr hlt
  have hform : ∀ x : ℚ, minmaxVal (numValsAt f i) x = (x - mn) / (mx - mn) := by
    intro x
    unfold minmaxVal
    rw [hmn, hmx]
    simp only [Option.getD_some]
    rw [if_neg (ne_of_gt hlt)]
  have hvals : numValsAt (Frame.mk f.schema
      (f.rows.map (cellMapAux (scaleCellAt f "minmax" (colsToScale f exclude)) 0))) i =
      (numValsAt f i).map (minmaxVal (numValsAt f i)) := by
    have hname : (f.schema.getD i ("", Dtype.numeric)).1 ∈ colsToScale f exclude := by
      rw [hsch]
      exact hccols
    have hs := numValsAt_scaled f "minmax" (colsToScale f exclude) i hw hname
    have hsv : scaleValFor "minmax" (numValsAt f i) = minmaxVal (numValsAt f i) := by
      funext x
      simp [scaleValFor]
    rw [hs, hsv]
  refine ⟨Frame.mk f.schema
      (f.rows.map (cellMapAux (scaleCellAt f "minmax" (colsToScale f exclude)) 0)),
    ?_, hvals, ?_, ?_, ?_⟩
  · simp [scalerExecute, hne]
  · rw [hvals]
    apply listMin_eq_some
    · exact List.mem_map.mpr ⟨mn, listMin_mem hmn, by rw [hform, sub_self, zero_div]⟩
    · intro y hy
      rcases List.mem_map.mp hy with ⟨x, hx, hxy⟩
      rw [← hxy, hform]
      exact div_nonneg (sub_nonneg.mpr (listMin_le hmn hx)) (le_of_lt hpos)
  · rw [hvals]
    apply listMax_eq_some
    · exact List.mem_map.mpr ⟨mx, listMax_mem hmx, by rw [hform, div_self (ne_of_gt hpos)]⟩
    · intro y hy
      rcases List.mem_map.mp hy with ⟨x, hx, hxy⟩
      rw [← hxy, hform]
      rw [div_le_one hpos]
      exact sub_le_sub_right (listMax_ge hmx hx) mn
  · intro x
    rw [hmn, hmx]
    simp only [Option.getD_some]
    exact hform x

/-- The three-value column used to witness C7. -/
def fr7 : Frame :=
  Frame.mk [("a", Dtype.numeric)] [[Cell.num 2], [Cell.num 4], [Cell.num 3]]

/-- Witness for C7 at the concrete dataset `fr7` (values 2, 4, 3). -/
theorem c7_minmax_unit_interval_witness :
    ∃ g, scalerExecute fr7 "minmax" [] = Except.ok (g, fr7) ∧
      numValsAt g 0 = (numValsAt fr7 0).map (minmaxVal (numValsAt fr7 0)) ∧
      listMin (numValsAt g 0) = some 0 ∧
      listMax (numValsAt g 0) = some 1 ∧
      (∀ x : ℚ, minmaxVal (numValsAt fr7 0) x =
        (x - (listMin (numValsAt fr7 0)).getD 0) /
          ((listMax (numValsAt fr7 0)).getD 0 - (listMin (numValsAt fr7 0)).getD 0)) :=
  c7_minmax_unit_interval fr7 "a" [] 0 (by decide) rfl (by decide)
    (by decide) 2 4
    (by
      have hv : numValsAt fr7 0 = [2, 4, 3] := by
        norm_num [numValsAt, cellsAt, toNum, fr7, List.filterMap_cons]
      rw [hv]
      norm_num)
    (by
      have hv : numValsAt fr7 0 = [2, 4, 3] := by
        norm_num [numValsAt, cellsAt, toNum, fr7, List.filterMap_cons]
      rw [hv]
      norm_num)
    (by norm_num)
